import Mathlib

/-!
Shallow embedding of the version-bump pull-request configurator
found in src/lib/pull-request/bump.ts.

The constructor of the AutoBump class is a pure computation: it resolves
defaults for the optional request fields, derives the PR body from the
already-resolved branch name, and assembles the full props record handed
to the underlying AutoPullRequest engine.  We embed that computation as
the function `Bump.compute` below, translated line by line from the
source, and prove the specified properties about it.
-/

namespace Bump

/-- Head branch configuration. The source declares the narrow interface
`AutoBumpHead` with optional `name` and `sha`; we additionally carry the
engine-shaped key `source` that a caller bypassing the narrowed type could
place on the head object. The code never reads it. -/
structure AutoBumpHead where
  name : Option String := none
  sha : Option String := none
  source : Option String := none
deriving DecidableEq

/-- Identity of the target repository: owner and repository name. -/
structure RepositoryIdentity where
  owner : String
  repo : String
deriving DecidableEq

/-- The bump request (`AutoBumpProps` in the source): every field optional.
`commands` and `condition` model the keys of the generic superset props
type that the narrowed public type omits; a caller working around the type
system could still supply them, and the computation must ignore them. -/
structure BumpRequest where
  bumpCommand : Option String := none
  versionCommand : Option String := none
  title : Option String := none
  body : Option String := none
  head : Option AutoBumpHead := none
  exports : List (String × String) := []
  commands : Option (List String) := none
  condition : Option String := none
deriving DecidableEq

/-- Resolved head descriptor handed to the engine: a definite branch name
and an optional source commit. -/
structure ResolvedHead where
  name : String
  source : Option String
deriving DecidableEq

/-- The fully resolved job specification handed to the AutoPullRequest
engine (`AutoPullRequestProps` restricted to the fields the constructor
assembles, plus the passthrough repository identity). -/
structure AutoPullRequestProps where
  repo : RepositoryIdentity
  head : ResolvedHead
  title : String
  body : String
  commands : List String
  exports : List (String × String)
  condition : String
deriving DecidableEq

/-- Key lookup on the object model: value of the first pair whose key
matches. -/
def objGet : List (String × String) → String → Option String
  | [], _ => none
  | p :: m, k => if p.1 = k then some p.2 else objGet m k

/-- Key membership on the object model. -/
def hasKey : List (String × String) → String → Bool
  | [], _ => false
  | p :: m, k => p.1 = k || hasKey m k

/-- Replace the value stored at key `k` in place, leaving other pairs and
their order untouched. -/
def writeKey : List (String × String) → String → String → List (String × String)
  | [], _, _ => []
  | p :: m, k, v => (if p.1 = k then (k, v) else p) :: writeKey m k v

/-- JavaScript object-spread update: setting key `k` to `v` on an object
replaces the value in place when the key is already present, and appends
the new pair otherwise. This is the semantics of spreading the caller's
exports object and then writing the VERSION key. -/
def objSet (m : List (String × String)) (k v : String) : List (String × String) :=
  if hasKey m k then writeKey m k v else m ++ [(k, v)]

/-- Bool test that `t` is a prefix of `s`. -/
def isPrefixTok : List Char → List Char → Bool
  | [], _ => true
  | _ :: _, [] => false
  | c :: t, d :: s => c == d && isPrefixTok t s

/-- Number of occurrences of the token `t` in the character list `s`:
the number of positions at which `t` is a prefix of the remaining
suffix. -/
def countTok (t : List Char) : List Char → Nat
  | [] => if isPrefixTok t [] then 1 else 0
  | d :: s => (if isPrefixTok t (d :: s) then 1 else 0) + countTok t s

/-- The body of the AutoBump constructor, translated from the source:

  const branchName = props.head?.name ?? 'bump/$VERSION';
  const bumpCommand = props.bumpCommand ?? '/bin/sh ./bump.sh';
  const versionCommand = props.versionCommand ?? 'git describe';
  const title = props.title ?? 'chore(release): $VERSION';
  const body = props.body ?? See CHANGELOG link built from owner, repo and branchName;
  new AutoPullRequest(... head: name/sha, title, body, commands: [bumpCommand],
    exports: spread of props.exports with VERSION set to versionCommand,
    condition: 'git describe --exact-match master').
-/
def compute (props : BumpRequest) (repo : RepositoryIdentity) : AutoPullRequestProps :=
  let branchName := (props.head.bind AutoBumpHead.name).getD "bump/$VERSION"
  let bumpCommand := props.bumpCommand.getD "/bin/sh ./bump.sh"
  let versionCommand := props.versionCommand.getD "git describe"
  let title := props.title.getD "chore(release): $VERSION"
  let body := props.body.getD
    ("See [CHANGELOG](https://github.com/" ++ repo.owner ++ "/" ++ repo.repo ++
      "/blob/" ++ branchName ++ "/CHANGELOG.md)")
  { repo := repo
    head := { name := branchName, source := props.head.bind AutoBumpHead.sha }
    title := title
    body := body
    commands := [bumpCommand]
    exports := objSet props.exports "VERSION" versionCommand
    condition := "git describe --exact-match master" }

theorem objGet_writeKey_self (m : List (String × String)) (k v : String)
    (h : hasKey m k = true) :
    objGet (writeKey m k v) k = some v := by
  induction m with
  | nil => simp [hasKey] at h
  | cons p m ih =>
    by_cases hp : p.1 = k
    · simp [writeKey, objGet, hp]
    · simp only [hasKey, hp, decide_eq_true_eq, Bool.false_or, decide_eq_false_iff_not,
        Bool.or_eq_true, false_or] at h
      simp [writeKey, objGet, hp, ih h]

theorem objGet_append_self (m : List (String × String)) (k v : String)
    (h : hasKey m k = false) :
    objGet (m ++ [(k, v)]) k = some v := by
  induction m with
  | nil => simp [objGet]
  | cons p m ih =>
    simp only [hasKey, Bool.or_eq_false_iff, decide_eq_false_iff_not] at h
    simp [objGet, h.1, ih h.2]

/-- Looking up the written key after a JavaScript spread update yields the
written value, whether or not the key was already present. -/
theorem objGet_objSet_self (m : List (String × String)) (k v : String) :
    objGet (objSet m k v) k = some v := by
  unfold objSet
  by_cases h : hasKey m k = true
  · simp [h, objGet_writeKey_self m k v h]
  · have h' : hasKey m k = false := by simpa using h
    simp [h', objGet_append_self m k v h']

theorem objGet_writeKey_other (m : List (String × String)) (k v q : String)
    (hq : q ≠ k) :
    objGet (writeKey m k v) q = objGet m q := by
  induction m with
  | nil => rfl
  | cons p m ih =>
    by_cases hp : p.1 = k
    · simp [writeKey, objGet, hp, Ne.symm hq, ih]
    · simp only [writeKey, hp, if_false, objGet, ih]

theorem objGet_append_other (m : List (String × String)) (k v q : String)
    (hq : q ≠ k) :
    objGet (m ++ [(k, v)]) q = objGet m q := by
  induction m with
  | nil => simp [objGet, Ne.symm hq]
  | cons p m ih =>
    by_cases hp : p.1 = q
    · simp [objGet, hp]
    · simp [objGet, hp, ih]

/-- A JavaScript spread update of one key leaves lookups of every other
key unchanged. -/
theorem objGet_objSet_other (m : List (String × String)) (k v q : String)
    (hq : q ≠ k) :
    objGet (objSet m k v) q = objGet m q := by
  unfold objSet
  by_cases h : hasKey m k = true
  · simp [h, objGet_writeKey_other m k v q hq]
  · have h' : hasKey m k = false := by simpa using h
    simp [h', objGet_append_other m k v q hq]

/-- C1: for an empty BumpRequest (all optional fields absent) and the
repository identity acme/widgets, compute yields exactly the documented
default job specification. -/
theorem default_completeness :
    compute {} { owner := "acme", repo := "widgets" } =
      { repo := { owner := "acme", repo := "widgets" }
        head := { name := "bump/$VERSION", source := none }
        title := "chore(release): $VERSION"
        body := "See [CHANGELOG](https://github.com/acme/widgets/blob/bump/$VERSION/CHANGELOG.md)"
        commands := ["/bin/sh ./bump.sh"]
        exports := [("VERSION", "git describe")]
        condition := "git describe --exact-match master" } := by
  decide

theorem compute_head_name (r : BumpRequest) (repo : RepositoryIdentity) :
    (compute r repo).head.name = (r.head.bind AutoBumpHead.name).getD "bump/$VERSION" := rfl

theorem compute_head_source (r : BumpRequest) (repo : RepositoryIdentity) :
    (compute r repo).head.source = r.head.bind AutoBumpHead.sha := rfl

theorem compute_title (r : BumpRequest) (repo : RepositoryIdentity) :
    (compute r repo).title = r.title.getD "chore(release): $VERSION" := rfl

theorem compute_body (r : BumpRequest) (repo : RepositoryIdentity) :
    (compute r repo).body = r.body.getD
      ("See [CHANGELOG](https://github.com/" ++ repo.owner ++ "/" ++ repo.repo ++
        "/blob/" ++ (r.head.bind AutoBumpHead.name).getD "bump/$VERSION" ++ "/CHANGELOG.md)") := rfl

theorem compute_commands (r : BumpRequest) (repo : RepositoryIdentity) :
    (compute r repo).commands = [r.bumpCommand.getD "/bin/sh ./bump.sh"] := rfl

theorem compute_exports (r : BumpRequest) (repo : RepositoryIdentity) :
    (compute r repo).exports = objSet r.exports "VERSION" (r.versionCommand.getD "git describe") := rfl

/-- C2: every field with a defaulting rule uses the caller-supplied value
verbatim when it is supplied, independently of the other fields, and the
default only shows up in that output field when the caller supplied the
default itself. -/
theorem override_precedence (r : BumpRequest) (repo : RepositoryIdentity) :
    (∀ h n, r.head = some h → h.name = some n →
      (compute r repo).head.name = n ∧
        (n ≠ "bump/$VERSION" → (compute r repo).head.name ≠ "bump/$VERSION")) ∧
    (∀ s, r.bumpCommand = some s →
      (compute r repo).commands = [s] ∧
        (s ≠ "/bin/sh ./bump.sh" → (compute r repo).commands ≠ ["/bin/sh ./bump.sh"])) ∧
    (∀ s, r.versionCommand = some s →
      objGet (compute r repo).exports "VERSION" = some s ∧
        (s ≠ "git describe" → objGet (compute r repo).exports "VERSION" ≠ some "git describe")) ∧
    (∀ s, r.title = some s →
      (compute r repo).title = s ∧
        (s ≠ "chore(release): $VERSION" → (compute r repo).title ≠ "chore(release): $VERSION")) ∧
    (∀ s, r.body = some s →
      (compute r repo).body = s ∧
        (s ≠ "See [CHANGELOG](https://github.com/" ++ repo.owner ++ "/" ++ repo.repo ++
            "/blob/" ++ (compute r repo).head.name ++ "/CHANGELOG.md)" →
          (compute r repo).body ≠ "See [CHANGELOG](https://github.com/" ++ repo.owner ++ "/" ++
            repo.repo ++ "/blob/" ++ (compute r repo).head.name ++ "/CHANGELOG.md)")) := by
  refine ⟨?_, ?_, ?_, ?_, ?_⟩
  · intro h n hh hn
    have he : (compute r repo).head.name = n := by
      rw [compute_head_name, hh]
      simp [hn]
    exact ⟨he, fun hne => by rw [he]; exact hne⟩
  · intro s hs
    have he : (compute r repo).commands = [s] := by rw [compute_commands, hs]; rfl
    refine ⟨he, fun hne hc => hne ?_⟩
    rw [he] at hc
    simpa using hc
  · intro s hs
    have he : objGet (compute r repo).exports "VERSION" = some s := by
      rw [compute_exports, hs]
      exact objGet_objSet_self _ _ _
    exact ⟨he, fun hne hc => hne (by rw [he] at hc; exact Option.some.inj hc)⟩
  · intro s hs
    have he : (compute r repo).title = s := by rw [compute_title, hs]; rfl
    exact ⟨he, fun hne => by rw [he]; exact hne⟩
  · intro s hs
    have he : (compute r repo).body = s := by rw [compute_body, hs]; rfl
    exact ⟨he, fun hne => by rw [he]; exact hne⟩

theorem override_precedence_witness :
    (compute { bumpCommand := some "make bump", versionCommand := some "git tag", title := some "T", body := some "B", head := some { name := some "rel/$VERSION" } }
        { owner := "acme", repo := "widgets" }).head.name = "rel/$VERSION" ∧
    (compute { bumpCommand := some "make bump", versionCommand := some "git tag", title := some "T", body := some "B", head := some { name := some "rel/$VERSION" } }
        { owner := "acme", repo := "widgets" }).commands = ["make bump"] ∧
    objGet (compute { bumpCommand := some "make bump", versionCommand := some "git tag", title := some "T", body := some "B", head := some { name := some "rel/$VERSION" } }
        { owner := "acme", repo := "widgets" }).exports "VERSION" = some "git tag" ∧
    (compute { bumpCommand := some "make bump", versionCommand := some "git tag", title := some "T", body := some "B", head := some { name := some "rel/$VERSION" } }
        { owner := "acme", repo := "widgets" }).title = "T" ∧
    (compute { bumpCommand := some "make bump", versionCommand := some "git tag", title := some "T", body := some "B", head := some { name := some "rel/$VERSION" } }
        { owner := "acme", repo := "widgets" }).body = "B" :=
  ⟨((override_precedence _ _).1 _ _ rfl rfl).1,
   ((override_precedence _ _).2.1 _ rfl).1,
   ((override_precedence _ _).2.2.1 _ rfl).1,
   ((override_precedence _ _).2.2.2.1 _ rfl).1,
   ((override_precedence _ _).2.2.2.2 _ rfl).1⟩

/-- C3: whenever the request body is absent, the derived body is the
changelog markdown link built from the already-resolved branch name; in
particular with head name release/$VERSION and absent body, the link
contains release/$VERSION exactly once and bump/$VERSION not at all. -/
theorem body_from_resolved_branch :
    (∀ (r : BumpRequest) (repo : RepositoryIdentity), r.body = none →
      (compute r repo).body =
        "See [CHANGELOG](https://github.com/" ++ repo.owner ++ "/" ++ repo.repo ++
          "/blob/" ++ (compute r repo).head.name ++ "/CHANGELOG.md)") ∧
    countTok "release/$VERSION".data
      (compute { head := some { name := some "release/$VERSION" } }
        { owner := "acme", repo := "widgets" }).body.data = 1 ∧
    countTok "bump/$VERSION".data
      (compute { head := some { name := some "release/$VERSION" } }
        { owner := "acme", repo := "widgets" }).body.data = 0 := by
  refine ⟨?_, by decide, by decide⟩
  intro r repo hb
  rw [compute_body, hb, compute_head_name]
  rfl

theorem body_from_resolved_branch_witness :
    (compute {} { owner := "acme", repo := "widgets" }).body =
      "See [CHANGELOG](https://github.com/" ++ "acme" ++ "/" ++ "widgets" ++
        "/blob/" ++ (compute {} { owner := "acme", repo := "widgets" }).head.name ++
        "/CHANGELOG.md)" :=
  body_from_resolved_branch.1 {} { owner := "acme", repo := "widgets" } rfl

/-- C4: the exports map always binds VERSION to the resolved version
command, overriding any caller-supplied binding at that key, and preserves
every other caller-supplied key unchanged. -/
theorem exports_reservation (r : BumpRequest) (repo : RepositoryIdentity) :
    objGet (compute r repo).exports "VERSION"
      = some (r.versionCommand.getD "git describe") ∧
    ∀ k, k ≠ "VERSION" → objGet (compute r repo).exports k = objGet r.exports k := by
  rw [compute_exports]
  exact ⟨objGet_objSet_self _ _ _, fun k hk => objGet_objSet_other _ _ _ _ hk⟩

theorem exports_reservation_witness :
    objGet (compute { versionCommand := some "git tag", exports := [("VERSION", "X"), ("FOO", "bar")] }
        { owner := "acme", repo := "widgets" }).exports "VERSION" = some "git tag" ∧
    objGet (compute { versionCommand := some "git tag", exports := [("VERSION", "X"), ("FOO", "bar")] }
        { owner := "acme", repo := "widgets" }).exports "FOO"
      = objGet [("VERSION", "X"), ("FOO", "bar")] "FOO" :=
  ⟨(exports_reservation _ _).1,
   (exports_reservation _ _).2 "FOO" (by decide)⟩

/-- C5: the output commands field is always the single-element list
holding the resolved bump command. -/
theorem single_command (r : BumpRequest) (repo : RepositoryIdentity) :
    (compute r repo).commands = [r.bumpCommand.getD "/bin/sh ./bump.sh"] ∧
    (compute r repo).commands.length = 1 :=
  ⟨compute_commands r repo, rfl⟩

/-- C6: the output condition is the fixed literal regardless of every
input field. -/
theorem condition_immutable (r : BumpRequest) (repo : RepositoryIdentity) :
    (compute r repo).condition = "git describe --exact-match master" := rfl

/-- C7: the request's commands, condition, and raw engine-shaped head
source are never read: two requests equal in all narrowed-interface
fields, whatever those three carry, produce identical outputs, and the
output values at those keys are always the configurator-derived ones. -/
theorem reserved_fields_never_read (r₁ r₂ : BumpRequest) (repo : RepositoryIdentity)
    (hbc : r₁.bumpCommand = r₂.bumpCommand)
    (hvc : r₁.versionCommand = r₂.versionCommand)
    (ht : r₁.title = r₂.title)
    (hb : r₁.body = r₂.body)
    (hex : r₁.exports = r₂.exports)
    (hn : r₁.head.bind AutoBumpHead.name = r₂.head.bind AutoBumpHead.name)
    (hs : r₁.head.bind AutoBumpHead.sha = r₂.head.bind AutoBumpHead.sha) :
    compute r₁ repo = compute r₂ repo ∧
    (compute r₁ repo).commands = [r₁.bumpCommand.getD "/bin/sh ./bump.sh"] ∧
    (compute r₁ repo).condition = "git describe --exact-match master" ∧
    (compute r₁ repo).head =
      { name := (r₁.head.bind AutoBumpHead.name).getD "bump/$VERSION"
        source := r₁.head.bind AutoBumpHead.sha } := by
  refine ⟨?_, rfl, rfl, rfl⟩
  simp only [compute, hbc, hvc, ht, hb, hex, hn, hs]

theorem reserved_fields_never_read_witness :
    compute { commands := some ["echo hijacked"], condition := some "true",
              head := some { source := some "deadbeef" } }
        { owner := "acme", repo := "widgets" }
      = compute {} { owner := "acme", repo := "widgets" } :=
  (reserved_fields_never_read
    { commands := some ["echo hijacked"], condition := some "true",
      head := some { source := some "deadbeef" } }
    {} { owner := "acme", repo := "widgets" }
    rfl rfl rfl rfl rfl rfl rfl).1

/-- C8: compute performs no substitution of the $VERSION token: the output
head name, title and body are character-for-character the resolved caller
or default template strings, so every occurrence of the token is
preserved verbatim. -/
theorem version_token_verbatim (r : BumpRequest) (repo : RepositoryIdentity) :
    ((compute r repo).head.name.data
        = ((r.head.bind AutoBumpHead.name).getD "bump/$VERSION").data ∧
      (compute r repo).title.data = (r.title.getD "chore(release): $VERSION").data ∧
      (compute r repo).body.data = (r.body.getD
        ("See [CHANGELOG](https://github.com/" ++ repo.owner ++ "/" ++ repo.repo ++
          "/blob/" ++ (compute r repo).head.name ++ "/CHANGELOG.md)")).data) ∧
    countTok "$VERSION".data (compute r repo).head.name.data
      = countTok "$VERSION".data ((r.head.bind AutoBumpHead.name).getD "bump/$VERSION").data ∧
    countTok "$VERSION".data (compute r repo).title.data
      = countTok "$VERSION".data ((r.title.getD "chore(release): $VERSION")).data ∧
    ∀ b, r.body = some b →
      countTok "$VERSION".data (compute r repo).body.data = countTok "$VERSION".data b.data :=
  ⟨⟨rfl, rfl, rfl⟩, rfl, rfl, fun b hb => by rw [compute_body, hb]; rfl⟩

theorem version_token_verbatim_witness :
    countTok "$VERSION".data
      (compute { body := some "now at $VERSION" }
        { owner := "acme", repo := "widgets" }).body.data
      = countTok "$VERSION".data ("now at $VERSION").data :=
  (version_token_verbatim { body := some "now at $VERSION" }
    { owner := "acme", repo := "widgets" }).2.2.2 "now at $VERSION" rfl

/-- C9: the output head source is the verbatim passthrough of the request
head sha: equal to it when supplied, and absent when the head or the sha
is absent. -/
theorem head_source_passthrough (r : BumpRequest) (repo : RepositoryIdentity) :
    (compute r repo).head.source = r.head.bind AutoBumpHead.sha ∧
    (∀ h s, r.head = some h → h.sha = some s → (compute r repo).head.source = some s) ∧
    (r.head = none → (compute r repo).head.source = none) ∧
    (∀ h, r.head = some h → h.sha = none → (compute r repo).head.source = none) := by
  refine ⟨rfl, ?_, ?_, ?_⟩
  · intro h s hh hs
    rw [compute_head_source, hh]
    exact hs
  · intro hh
    rw [compute_head_source, hh]
    rfl
  · intro h hh hs
    rw [compute_head_source, hh]
    exact hs

theorem head_source_passthrough_witness :
    (compute { head := some { sha := some "abc123" } }
      { owner := "acme", repo := "widgets" }).head.source = some "abc123" ∧
    (compute {} { owner := "acme", repo := "widgets" }).head.source = none :=
  ⟨(head_source_passthrough { head := some { sha := some "abc123" } }
      { owner := "acme", repo := "widgets" }).2.1
      { sha := some "abc123" } "abc123" rfl rfl,
   (head_source_passthrough {} { owner := "acme", repo := "widgets" }).2.2.1 rfl⟩

/-- C10: the two head components resolve independently: a head carrying
only a sha still gets the default branch name, and a head carrying only a
name leaves the source undefined. -/
theorem head_fields_independent (r : BumpRequest) (repo : RepositoryIdentity)
    (h : AutoBumpHead) (hh : r.head = some h) :
    (h.name = none → (compute r repo).head.name = "bump/$VERSION") ∧
    (∀ s, h.sha = some s → (compute r repo).head.source = some s) ∧
    (∀ n, h.name = some n → (compute r repo).head.name = n) ∧
    (h.sha = none → (compute r repo).head.source = none) := by
  refine ⟨?_, ?_, ?_, ?_⟩
  · intro hn
    rw [compute_head_name, hh]
    simp [hn]
  · intro s hs
    rw [compute_head_source, hh]
    exact hs
  · intro n hn
    rw [compute_head_name, hh]
    simp [hn]
  · intro hs
    rw [compute_head_source, hh]
    exact hs

theorem head_fields_independent_witness :
    (compute { head := some { sha := some "abc" } }
      { owner := "acme", repo := "widgets" }).head.name = "bump/$VERSION" ∧
    (compute { head := some { sha := some "abc" } }
      { owner := "acme", repo := "widgets" }).head.source = some "abc" ∧
    (compute { head := some { name := some "rel" } }
      { owner := "acme", repo := "widgets" }).head.name = "rel" ∧
    (compute { head := some { name := some "rel" } }
      { owner := "acme", repo := "widgets" }).head.source = none :=
  ⟨(head_fields_independent _ _ { sha := some "abc" } rfl).1 rfl,
   (head_fields_independent _ _ { sha := some "abc" } rfl).2.1 "abc" rfl,
   (head_fields_independent _ _ { name := some "rel" } rfl).2.2.1 "rel" rfl,
   (head_fields_independent _ _ { name := some "rel" } rfl).2.2.2 rfl⟩

end Bump
